import Mathlib

/-
Verification of the Lodestone dashboard console stream controller
(src/src/components/GameConsole.tsx) and of the LineBuffer contract of the
console stream described in the design document.  The component is embedded
shallowly: its pure render-time computations become Lean functions, the
React render/effect cycle becomes an explicit fold over a list of render
steps, and the side effects it emits (HTTP command requests, scroll
commands) become values of an inductive `Effect` type.
-/

namespace LodestoneConsole

/-- Connection/authorization status of the console stream, the string union
    consumed by the switch in GameConsole.tsx. -/
inductive ConsoleStatus
  | noPermission
  | loading
  | buffered
  | live
  | liveNoBuffer
  | closed
  | error
deriving DecidableEq

/-- The slice of the externally supplied instance handle that GameConsole
    reads: `instance.uuid` and `instance.state`. -/
structure InstanceInfo where
  uuid : String
  state : String
deriving DecidableEq

/-- One console log line: a snowflake id (time ordered, globally unique)
    and its message text. -/
structure ConsoleLine where
  snowflake : Nat
  message : String
deriving DecidableEq

/-- Viewport metrics of the scrollable list element, as read from
    `listRef.current` in GameConsole.tsx. -/
structure Viewport where
  scrollHeight : Int
  scrollTop : Int
  clientHeight : Int
deriving DecidableEq

/-- `const autoScrollThreshold = 100;` (GameConsole.tsx line 12). -/
def autoScrollThreshold : Int := 100

/-- The at-bottom measurement on a mounted list element:
    `scrollHeight - scrollTop - clientHeight < autoScrollThreshold`. -/
def measuredAtBottom (v : Viewport) : Bool :=
  decide (v.scrollHeight - v.scrollTop - v.clientHeight < autoScrollThreshold)

/-- `isAtBottom` as computed each render (GameConsole.tsx lines 25-30):
    the measurement when `listRef.current` is non-null, `true` when the
    list element is not mounted yet (`: true` branch of the ternary). -/
def isAtBottom (listRef : Option Viewport) : Bool :=
  match listRef with
  | some v => measuredAtBottom v
  | none => true

/-- One render of the component, as far as the auto-scroll logic is
    concerned: the viewport metrics visible at render time, and whether the
    `consoleLog` dependency of the auto-scroll effect fired on this render
    (it fires on mount and whenever `consoleLog` changed). -/
structure RenderStep where
  listRef : Option Viewport
  logChanged : Bool
deriving DecidableEq

/-- The auto-scroll behaviour of GameConsole.tsx over a sequence of
    renders.  `stored` is the ref cell inside `usePrevious`: it holds the
    `isAtBottom` value of the previous render (`none` before the first
    render).  Each render first lets the effect observe `oldIsAtBottom`
    (JS truthiness of the stored value: `undefined` and `false` both skip
    the scroll), then `usePrevious` stores the current render's
    `isAtBottom`.  The returned list records, per render, whether
    `scrollToBottom` was issued by the `useEffect` on `[consoleLog]`. -/
def scrollOutputs : Option Bool → List RenderStep → List Bool
  | _, [] => []
  | stored, r :: rs =>
    (r.logChanged && stored.getD false) :: scrollOutputs (some (isAtBottom r.listRef)) rs

/-- The status banner text (the `switch (consoleStatus)` block). -/
def consoleStatusMessage : ConsoleStatus → String
  | .noPermission => ""
  | .loading => "Loading console..."
  | .buffered => "History messages. No live updates"
  | .live => "Console is live"
  | .liveNoBuffer =>
      "Console is live but failed to fetch history. Your internet connection may be unstable"
  | .closed => "Console is closed"
  | .error => "Connection lost or error"

/-- The disabled-state message of the command input (GameConsole.tsx lines
    83-89): permission check first, then run-state, then closed status;
    empty when the input is enabled. -/
def consoleInputMessage (canAccessConsole : Bool) (consoleStatus : ConsoleStatus)
    (state : String) : String :=
  if canAccessConsole = false ∨ consoleStatus = ConsoleStatus.noPermission then
    "No permission"
  else if state ≠ "Running" then
    "Instance is " ++ state.toLower
  else if consoleStatus = ConsoleStatus.closed then
    "Console is closed"
  else
    ""

/-- `disabled={consoleInputMessage !== ''}` on the command input. -/
def inputDisabled (canAccessConsole : Bool) (consoleStatus : ConsoleStatus)
    (state : String) : Bool :=
  decide (consoleInputMessage canAccessConsole consoleStatus state ≠ "")

/-- The side effects the component can emit towards the outside world:
    the axios command request and the scroll-to-bottom DOM command. -/
inductive Effect
  | transportRequest (method : String) (url : String) (payload : String)
  | scrollToBottomCmd
deriving DecidableEq

/-- JSON serialization of the command string, `JSON.stringify(command)`:
    the text wrapped in quotes with the JSON character escapes. -/
def jsonEscapeChar (c : Char) : String :=
  if c = '"' then "\\\""
  else if c = '\\' then "\\\\"
  else if c = '\n' then "\\n"
  else if c = '\r' then "\\r"
  else if c = '\t' then "\\t"
  else c.toString

/-- JSON.stringify on a string value. -/
def jsonStringify (s : String) : String :=
  "\"" ++ String.join (s.toList.map jsonEscapeChar) ++ "\""

/-- `sendCommand` (GameConsole.tsx lines 46-56): posts the JSON-encoded
    command to `/instance/uuid/console` and then calls `scrollToBottom`. -/
def sendCommand (uuid command : String) : List Effect :=
  [Effect.transportRequest "post" ("/instance/" ++ uuid ++ "/console")
      (jsonStringify command),
   Effect.scrollToBottomCmd]

/-- A user submission attempt through the command form: a disabled input
    cannot be focused or submitted, so the form handler (and with it
    `sendCommand`) runs only when `consoleInputMessage` is empty. -/
def submitCommand (canAccessConsole : Bool) (consoleStatus : ConsoleStatus)
    (state uuid command : String) : List Effect :=
  if inputDisabled canAccessConsole consoleStatus state = true then []
  else sendCommand uuid command

/-- The main pane of the component: either the no-permission placeholder
    or the scrollable list of log lines. -/
inductive Pane
  | noPermissionPane
  | logList (lines : List ConsoleLine)
deriving DecidableEq

/-- The pane selection (GameConsole.tsx lines 98-107): the no-permission
    placeholder whenever `!canAccessConsole || consoleStatus === 'no-permission'`,
    the log list otherwise. -/
def renderedPane (canAccessConsole : Bool) (consoleStatus : ConsoleStatus)
    (consoleLog : List ConsoleLine) : Pane :=
  if canAccessConsole = false ∨ consoleStatus = ConsoleStatus.noPermission then
    Pane.noPermissionPane
  else
    Pane.logList consoleLog

/-- The rendered output of the component. -/
structure Render where
  statusMessage : String
  pane : Pane
  inputMessage : String
  disabled : Bool
deriving DecidableEq

/-- The GameConsole component body: throws (`Except.error`) when no
    instance is selected (GameConsole.tsx line 16), and otherwise renders
    the status banner, the pane, and the command input. -/
def GameConsole (selectedInstance : Option InstanceInfo) (canAccessConsole : Bool)
    (consoleStatus : ConsoleStatus) (consoleLog : List ConsoleLine) :
    Except String Render :=
  match selectedInstance with
  | none => Except.error "No instance selected"
  | some inst =>
      Except.ok
        ⟨consoleStatusMessage consoleStatus,
         renderedPane canAccessConsole consoleStatus consoleLog,
         consoleInputMessage canAccessConsole consoleStatus inst.state,
         inputDisabled canAccessConsole consoleStatus inst.state⟩

/-- The command-gating condition exactly as the specification words it
    (for comparison with the code): permission denied, or status not
    `live`/`live-no-buffer`, or run-state not "Running". -/
def specGatingCondition (canAccessConsole : Bool) (consoleStatus : ConsoleStatus)
    (state : String) : Bool :=
  decide (canAccessConsole = false ∨
    (consoleStatus ≠ ConsoleStatus.live ∧ consoleStatus ≠ ConsoleStatus.liveNoBuffer) ∨
    state ≠ "Running")

end LodestoneConsole

namespace LodestoneConsole

/-- Appending the run-state to the "Instance is " prefix never produces an
    empty string, so the not-running branch always disables the input. -/
lemma instanceMessage_ne_empty (s : String) : "Instance is " ++ s ≠ "" := by
  intro h
  have h1 : ("Instance is " ++ s).length = ("" : String).length := by rw [h]
  rw [String.length_append] at h1
  have h2 : ("Instance is " : String).length = 12 := rfl
  have h3 : ("" : String).length = 0 := rfl
  omega

/-- The scroll decision of a render only depends on the stored previous
    value and on this render's effect firing; the output list walks in
    lockstep with the render list. -/
lemma scrollOutputs_get_succ (stored : Option Bool) (renders : List RenderStep)
    (i : Nat) (h0 : i < renders.length) (h1 : i + 1 < renders.length) :
    (scrollOutputs stored renders).get? (i + 1) =
      some ((renders.get ⟨i + 1, h1⟩).logChanged &&
        isAtBottom (renders.get ⟨i, h0⟩).listRef) := by
  induction renders generalizing stored i with
  | nil => simp at h0
  | cons r rs ih =>
      cases i with
      | zero =>
          match rs, h1 with
          | r2 :: rs2, _ => simp [scrollOutputs]
      | succ j =>
          have hj0 : j < rs.length := by simpa using h0
          have hj1 : j + 1 < rs.length := by simpa using h1
          simpa [scrollOutputs] using ih (some (isAtBottom r.listRef)) j hj0 hj1

end LodestoneConsole

namespace LodestoneConsole

/-- C9: when the list element has not been mounted yet (null ref), the
    component treats the viewport as at bottom. -/
theorem c9_null_ref_at_bottom : isAtBottom none = true := rfl

/-- C7: the at-bottom predicate on a measured viewport is exactly
    "distance from bottom strictly below the threshold", and the threshold
    constant is 100 pixels. -/
theorem c7_threshold (v : Viewport) :
    (isAtBottom (some v) = true ↔
      v.scrollHeight - v.scrollTop - v.clientHeight < 100) ∧
    autoScrollThreshold = 100 := by
  constructor
  · simp [isAtBottom, measuredAtBottom, autoScrollThreshold]
  · rfl

/-- C6: invoking the console with no instance selected fails loudly: the
    component throws, it does not render a translated status. -/
theorem c6_no_instance_throws (canAccessConsole : Bool) (consoleStatus : ConsoleStatus)
    (consoleLog : List ConsoleLine) :
    GameConsole none canAccessConsole consoleStatus consoleLog =
      Except.error "No instance selected" := rfl

/-- C2: on every render where the console log changed, the auto-scroll
    effect issues a scroll-to-bottom command exactly when the at-bottom
    value captured on the render immediately before the mutating one was
    true; a false captured value issues no scroll command, and the
    post-append measurement of render i+1 never enters the decision. -/
theorem c2_auto_scroll (renders : List RenderStep) (i : Nat)
    (h0 : i < renders.length) (h1 : i + 1 < renders.length)
    (hc : (renders.get ⟨i + 1, h1⟩).logChanged = true) :
    (scrollOutputs none renders).get? (i + 1) =
      some (isAtBottom (renders.get ⟨i, h0⟩).listRef) := by
  rw [scrollOutputs_get_succ none renders i h0 h1, hc, Bool.true_and]

/-- Witness for C2 at a concrete two-render trace: the first render (list
    mounted, 10 pixels from the bottom) measures at-bottom, so the second
    render, on which the log changed, issues the scroll command. -/
theorem c2_auto_scroll_witness :
    (scrollOutputs none
        [⟨some ⟨300, 250, 40⟩, true⟩, ⟨some ⟨500, 0, 40⟩, true⟩]).get? 1 =
      some (isAtBottom
        (([⟨some ⟨300, 250, 40⟩, true⟩, ⟨some ⟨500, 0, 40⟩, true⟩] :
            List RenderStep).get ⟨0, by decide⟩).listRef) :=
  c2_auto_scroll [⟨some ⟨300, 250, 40⟩, true⟩, ⟨some ⟨500, 0, 40⟩, true⟩] 0
    (by decide) (by decide) (by decide)

/-- C10: on the very first firing of the auto-scroll effect after mount
    (the first buffer change, when the console log receives its initial
    value), no scroll command is issued, because the usePrevious ref still
    holds no captured value. -/
theorem c10_first_change_no_scroll (r : RenderStep) (rs : List RenderStep)
    (_hc : r.logChanged = true) :
    (scrollOutputs none (r :: rs)).head? = some false := by
  simp [scrollOutputs]

/-- Witness for C10 at a concrete mount render whose log-change flag is
    set and whose viewport measures at bottom: still no scroll command. -/
theorem c10_first_change_no_scroll_witness :
    (scrollOutputs none [(⟨some ⟨300, 250, 40⟩, true⟩ : RenderStep)]).head? =
      some false :=
  c10_first_change_no_scroll ⟨some ⟨300, 250, 40⟩, true⟩ [] (by decide)

/-- C3: permission failure preempts every other state: for every console
    status and run-state, a failed canAccessConsole check or a
    no-permission status renders the no-permission pane and disables the
    command input with the permission message. -/
theorem c3_permission_precedence (canAccessConsole : Bool)
    (consoleStatus : ConsoleStatus) (state : String) (consoleLog : List ConsoleLine)
    (h : canAccessConsole = false ∨ consoleStatus = ConsoleStatus.noPermission) :
    renderedPane canAccessConsole consoleStatus consoleLog = Pane.noPermissionPane ∧
    consoleInputMessage canAccessConsole consoleStatus state = "No permission" ∧
    inputDisabled canAccessConsole consoleStatus state = true := by
  refine ⟨?_, ?_, ?_⟩
  · simp [renderedPane, h]
  · simp [consoleInputMessage, h]
  · simp [inputDisabled, consoleInputMessage, h]

/-- Witness for C3: permission denied while the status is live and the
    instance is running. -/
theorem c3_permission_precedence_witness :
    renderedPane false ConsoleStatus.live [] = Pane.noPermissionPane ∧
    consoleInputMessage false ConsoleStatus.live "Running" = "No permission" ∧
    inputDisabled false ConsoleStatus.live "Running" = true :=
  c3_permission_precedence false ConsoleStatus.live "Running" [] (Or.inl rfl)

/-- C5: every submission that passes the local gating posts the
    JSON-encoded command text to the command endpoint of the selected
    instance and triggers a forced scroll-to-bottom. -/
theorem c5_forwarding (canAccessConsole : Bool) (consoleStatus : ConsoleStatus)
    (state uuid command : String)
    (h : inputDisabled canAccessConsole consoleStatus state = false) :
    submitCommand canAccessConsole consoleStatus state uuid command =
      [Effect.transportRequest "post" ("/instance/" ++ uuid ++ "/console")
          (jsonStringify command),
       Effect.scrollToBottomCmd] := by
  simp [submitCommand, h, sendCommand]

/-- Witness for C5: a live console on a running instance forwards the
    command and scrolls. -/
theorem c5_forwarding_witness :
    submitCommand true ConsoleStatus.live "Running" "abc-123" "list" =
      [Effect.transportRequest "post" "/instance/abc-123/console"
          (jsonStringify "list"),
       Effect.scrollToBottomCmd] :=
  c5_forwarding true ConsoleStatus.live "Running" "abc-123" "list" (by decide)

/-- C1 counterexample: with permission granted, the instance running and
    the status only `loading` (so not live and not live-no-buffer), the
    spec's gating condition holds, yet the command input is enabled and a
    submission is forwarded to the transport: blocking is not "exactly
    when" the spec's condition holds. -/
theorem c1_counterexample :
    specGatingCondition true ConsoleStatus.loading "Running" = true ∧
    inputDisabled true ConsoleStatus.loading "Running" = false ∧
    submitCommand true ConsoleStatus.loading "Running" "abc-123" "list" ≠ [] := by
  refine ⟨by decide, by decide, ?_⟩
  simp [submitCommand, inputDisabled, consoleInputMessage, sendCommand]

/-- C1 amended: command submission is blocked (input disabled, nothing
    forwarded) exactly when permission is denied, or the status is
    `no-permission` or `closed`, or the run-state is not "Running"; the
    statuses `loading`, `buffered` and `error` do not block. Every block
    is silent: nothing reaches the transport exactly when the input is
    disabled with its descriptive message. -/
theorem c1_gating_amended (canAccessConsole : Bool) (consoleStatus : ConsoleStatus)
    (state uuid command : String) :
    (inputDisabled canAccessConsole consoleStatus state = true ↔
      (canAccessConsole = false ∨ consoleStatus = ConsoleStatus.noPermission ∨
        consoleStatus = ConsoleStatus.closed ∨ state ≠ "Running")) ∧
    (submitCommand canAccessConsole consoleStatus state uuid command = [] ↔
      inputDisabled canAccessConsole consoleStatus state = true) := by
  constructor
  · by_cases hs : state = "Running" <;>
      cases canAccessConsole <;> cases consoleStatus <;>
        simp [inputDisabled, consoleInputMessage, hs, instanceMessage_ne_empty]
  · by_cases hd : inputDisabled canAccessConsole consoleStatus state = true <;>
      simp [submitCommand, hd, sendCommand]

end LodestoneConsole

namespace LodestoneConsole.LineBuffer

/-- Ordering of console lines by their snowflake id. -/
abbrev idLt (a b : ConsoleLine) : Prop := a.snowflake < b.snowflake

/-- The LineBuffer ordering invariant: strictly increasing snowflake ids. -/
abbrev IdSorted (buf : List ConsoleLine) : Prop := List.Pairwise idLt buf

/-- Modelled from the spec: the LineBuffer lives in the useConsoleStream
    hook (data/ConsoleStream), which is not among the sources here; only
    its caller GameConsole.tsx is.  Ordered insertion of one line: a line
    whose id is already present is dropped (the existing line is kept),
    otherwise it is inserted at its id-ordered position. -/
def insertLine (l : ConsoleLine) : List ConsoleLine → List ConsoleLine
  | [] => [l]
  | x :: xs =>
    if l.snowflake < x.snowflake then l :: x :: xs
    else if l.snowflake = x.snowflake then x :: xs
    else x :: insertLine l xs

/-- Modelled from the spec: `append(batch)` merges a batch into the buffer
    line by line, preserving increasing-id order and dropping lines whose
    id already exists (sorting the batch as it merges, as the spec
    requires for unordered batches). -/
def append (batch : List ConsoleLine) (buf : List ConsoleLine) : List ConsoleLine :=
  batch.foldl (fun b l => insertLine l b) buf

/-- Modelled from the spec: `snapshot()` returns the current ordered
    sequence for rendering. -/
def snapshot (buf : List ConsoleLine) : List ConsoleLine := buf

/-- Modelled from the spec: the batches a LineBuffer receives over its
    lifetime — `replaceHistory` (replaces contents outright with the
    ordered history window), `append` for each live batch, and `clear()`
    on instance switch. -/
inductive BufferEvent
  | historyBatch (batch : List ConsoleLine)
  | liveBatch (batch : List ConsoleLine)
  | clearBuffer

/-- Modelled from the spec: the effect of one delivery on the buffer.
    replaceHistory discards previous contents and installs the history
    batch, normalized to the ordering invariant the boundary guarantees. -/
def applyEvent (buf : List ConsoleLine) : BufferEvent → List ConsoleLine
  | .historyBatch b => append b []
  | .liveBatch b => append b buf
  | .clearBuffer => []

/-- Modelled from the spec: the buffer contents after a whole sequence of
    deliveries, starting from an empty buffer. -/
def deliver (events : List BufferEvent) : List ConsoleLine :=
  events.foldl applyEvent []

lemma append_cons (l : ConsoleLine) (batch buf : List ConsoleLine) :
    append (l :: batch) buf = append batch (insertLine l buf) := rfl

lemma mem_insertLine {a l : ConsoleLine} {buf : List ConsoleLine}
    (h : a ∈ insertLine l buf) : a = l ∨ a ∈ buf := by
  induction buf with
  | nil => simpa [insertLine] using h
  | cons x xs ih =>
      simp only [insertLine] at h
      split at h
      · rcases List.mem_cons.mp h with h | h
        · exact Or.inl h
        · exact Or.inr h
      · split at h
        · exact Or.inr h
        · rcases List.mem_cons.mp h with h | h
          · exact Or.inr (by simp [h])
          · rcases ih h with h | h
            · exact Or.inl h
            · exact Or.inr (List.mem_cons_of_mem x h)

lemma insertLine_sorted {l : ConsoleLine} {buf : List ConsoleLine}
    (hs : IdSorted buf) : IdSorted (insertLine l buf) := by
  induction buf with
  | nil => simp [insertLine]
  | cons x xs ih =>
      rcases List.pairwise_cons.mp hs with ⟨hx, hxs⟩
      simp only [insertLine]
      split
      next h1 =>
        refine List.pairwise_cons.mpr ⟨?_, hs⟩
        intro b hb
        rcases List.mem_cons.mp hb with hb | hb
        · subst hb; exact h1
        · exact h1.trans (hx b hb)
      next h1 =>
        split
        next h2 => exact hs
        next h2 =>
          have hxl : x.snowflake < l.snowflake := by omega
          refine List.pairwise_cons.mpr ⟨?_, ih hxs⟩
          intro b hb
          rcases mem_insertLine hb with hb | hb
          · subst hb; exact hxl
          · exact hx b hb

lemma insertLine_id_mem (l : ConsoleLine) (buf : List ConsoleLine) :
    l.snowflake ∈ (insertLine l buf).map ConsoleLine.snowflake := by
  induction buf with
  | nil => simp [insertLine]
  | cons x xs ih =>
      simp only [insertLine]
      split
      · simp
      · split
        next h2 => simp [h2]
        · simp only [List.map_cons, List.mem_cons]
          exact Or.inr ih

lemma mem_map_insertLine {a : Nat} (l : ConsoleLine) {buf : List ConsoleLine}
    (h : a ∈ buf.map ConsoleLine.snowflake) :
    a ∈ (insertLine l buf).map ConsoleLine.snowflake := by
  induction buf with
  | nil => simp at h
  | cons x xs ih =>
      simp only [List.map_cons, List.mem_cons] at h
      simp only [insertLine]
      split
      · simp only [List.map_cons, List.mem_cons]
        rcases h with h | h
        · exact Or.inr (Or.inl h)
        · exact Or.inr (Or.inr h)
      · split
        · simpa using h
        · simp only [List.map_cons, List.mem_cons]
          rcases h with h | h
          · exact Or.inl h
          · exact Or.inr (ih h)

lemma insertLine_eq_self {l : ConsoleLine} {buf : List ConsoleLine}
    (hs : IdSorted buf) (hm : l.snowflake ∈ buf.map ConsoleLine.snowflake) :
    insertLine l buf = buf := by
  induction buf with
  | nil => simp at hm
  | cons x xs ih =>
      rcases List.pairwise_cons.mp hs with ⟨hx, hxs⟩
      simp only [List.map_cons, List.mem_cons] at hm
      rcases hm with h2 | h2
      · simp [insertLine, h2]
      · have hlt : x.snowflake < l.snowflake := by
          rcases List.mem_map.mp h2 with ⟨b, hb, hbe⟩
          exact hbe ▸ hx b hb
        rw [insertLine, if_neg (by omega), if_neg (by omega), ih hxs h2]

lemma append_sorted (batch : List ConsoleLine) {buf : List ConsoleLine}
    (hs : IdSorted buf) : IdSorted (append batch buf) := by
  induction batch generalizing buf with
  | nil => exact hs
  | cons l b ih =>
      rw [append_cons]
      exact ih (insertLine_sorted hs)

lemma mem_map_append {a : Nat} (batch : List ConsoleLine) {buf : List ConsoleLine}
    (h : a ∈ buf.map ConsoleLine.snowflake) :
    a ∈ (append batch buf).map ConsoleLine.snowflake := by
  induction batch generalizing buf with
  | nil => exact h
  | cons l b ih =>
      rw [append_cons]
      exact ih (mem_map_insertLine l h)

lemma id_mem_append {l : ConsoleLine} {batch : List ConsoleLine}
    (hl : l ∈ batch) (buf : List ConsoleLine) :
    l.snowflake ∈ (append batch buf).map ConsoleLine.snowflake := by
  induction batch generalizing buf with
  | nil => simp at hl
  | cons x b ih =>
      rw [append_cons]
      rcases List.mem_cons.mp hl with h | h
      · subst h
        exact mem_map_append b (insertLine_id_mem l buf)
      · exact ih h (insertLine x buf)

lemma append_eq_self {batch A : List ConsoleLine} (hs : IdSorted A)
    (hmem : ∀ l ∈ batch, l.snowflake ∈ A.map ConsoleLine.snowflake) :
    append batch A = A := by
  induction batch with
  | nil => rfl
  | cons x b ih =>
      rw [append_cons, insertLine_eq_self hs (hmem x (List.mem_cons_self x b))]
      exact ih (fun l hl => hmem l (List.mem_cons_of_mem x hl))

lemma foldl_applyEvent_sorted (events : List BufferEvent)
    {buf : List ConsoleLine} (hs : IdSorted buf) :
    IdSorted (events.foldl applyEvent buf) := by
  induction events generalizing buf with
  | nil => exact hs
  | cons e es ih =>
      rw [List.foldl_cons]
      cases e with
      | historyBatch b => exact ih (append_sorted b List.Pairwise.nil)
      | liveBatch b => exact ih (append_sorted b hs)
      | clearBuffer => exact ih List.Pairwise.nil

/-- C4: for every sequence of history, live and clear deliveries, in any
    order and with arbitrary overlap between batches, the buffer snapshot
    is strictly increasing by snowflake id and carries no duplicate id. -/
theorem c4_ordering (events : List BufferEvent) :
    List.Pairwise (fun a b => a.snowflake < b.snowflake) (snapshot (deliver events)) ∧
    ((snapshot (deliver events)).map ConsoleLine.snowflake).Nodup := by
  have hs : IdSorted (deliver events) :=
    foldl_applyEvent_sorted events List.Pairwise.nil
  refine ⟨hs, ?_⟩
  have hp : List.Pairwise (· < ·) ((deliver events).map ConsoleLine.snowflake) :=
    List.pairwise_map.mpr hs
  exact hp.imp (fun h => Nat.ne_of_lt h)

/-- C8: appending the same batch twice yields the same snapshot as
    appending it once, for every buffer state reachable by any sequence of
    deliveries: the second pass finds every id already present and drops
    every line. -/
theorem c8_idempotent (events : List BufferEvent) (batch : List ConsoleLine) :
    snapshot (append batch (append batch (deliver events))) =
      snapshot (append batch (deliver events)) := by
  have hs : IdSorted (append batch (deliver events)) :=
    append_sorted batch (foldl_applyEvent_sorted events List.Pairwise.nil)
  exact append_eq_self hs (fun l hl => id_mem_append hl (deliver events))

end LodestoneConsole.LineBuffer

namespace LodestoneConsole

end LodestoneConsole
